import Mathlib

/-!
Shallow embedding of `src/main.rs` of the AHC score visualizer: a batch
pipeline that scores every input file with an external tester, visualizes
each scored result, and aggregates a sorted report with a total score.

External effects (file system, subprocesses, the rayon thread pool and the
mpsc channel) are modelled by explicit environments and effect lists; the
nondeterministic completion order of the parallel scoring stage is modelled
by quantifying over the permutation in which results reach the consumer.
Rust machine strings are modelled by Lean `String` / `List Char`; byte
streams by `List Nat`; `usize` arithmetic stays in `Nat` with the 64-bit
bound made explicit where `str::parse::<usize>` can overflow.
-/

namespace AhcVis

/-- Bytes of a captured stream (`Vec<u8>` in the source). -/
abbrev Bytes := List Nat

/-! ### Character-list utilities mirroring the Rust `str` methods used -/

/-- Embedding of Rust `str::split(c)`: split at every occurrence of the
separator character, keeping empty pieces; always returns at least one
piece (Rust's `split` yields at least one substring). -/
def splitChar (c : Char) : List Char → List (List Char)
  | [] => [[]]
  | x :: xs =>
    if x = c then [] :: splitChar c xs
    else
      match splitChar c xs with
      | [] => [[x]]
      | h :: t => (x :: h) :: t

/-- Split at every character satisfying `p`, keeping empty pieces. -/
def splitBy (p : Char → Bool) : List Char → List (List Char)
  | [] => [[]]
  | x :: xs =>
    if p x then [] :: splitBy p xs
    else
      match splitBy p xs with
      | [] => [[x]]
      | h :: t => (x :: h) :: t

/-- Embedding of Rust `str::split_whitespace`: split on whitespace and
discard empty pieces (the source only ever feeds it ASCII command text,
for which `Char.isWhitespace` matches Rust's Unicode whitespace). -/
def splitWhitespace (s : String) : List String :=
  ((splitBy Char.isWhitespace s.data).filter (· ≠ [])).map List.asString

/-- Strip one trailing carriage return, as Rust `str::lines` does on each
line. -/
def stripCR (l : List Char) : List Char :=
  if l.getLast? = some '\r' then l.dropLast else l

/-- Embedding of Rust `str::lines`: split on `'\n'`, drop the final empty
piece produced by a trailing newline (so `""` has no lines), and strip one
trailing `'\r'` from each line. -/
def rustLines (s : String) : List (List Char) :=
  let parts := splitChar '\n' s.data
  let parts := if parts.getLast? = some [] then parts.dropLast else parts
  parts.map stripCR

/-- The literal pattern `"Score = "` scanned for in the tester's stderr. -/
def scorePat : List Char := "Score = ".data

/-- Fuel-indexed body of `trimScoreMatches`; the fuel only bounds the
number of removals and is always sufficient at `s.length`. -/
def trimScoreAux : Nat → List Char → List Char
  | 0, s => s
  | n + 1, s =>
    if scorePat.isPrefixOf s then trimScoreAux n (s.drop scorePat.length) else s

/-- Embedding of Rust `line.trim_start_matches("Score = ")`: remove the
pattern from the front REPEATEDLY until it no longer matches (this is what
`trim_start_matches` does — it is not a single-strip operation). -/
def trimScoreMatches (s : List Char) : List Char :=
  trimScoreAux s.length s

/-- Numeric value of a digit string (most significant first). -/
def digitsVal (l : List Char) : Nat :=
  l.foldl (fun n c => n * 10 + (c.toNat - 48)) 0

/-- Embedding of Rust `str::parse::<usize>()`: an optional leading `'+'`,
then one or more ASCII digits, and the value must fit in 64 bits
(`usize` on the target); anything else is a parse error. -/
def parseUsize (s : List Char) : Option Nat :=
  let t := match s with
    | '+' :: rest => rest
    | l => l
  if t ≠ [] ∧ t.all Char.isDigit ∧ digitsVal t < 2 ^ 64 then some (digitsVal t)
  else none

/-! ### Score extraction and sort-key extraction (`src/main.rs` lines 228-240, 324-340) -/

/-- Embedding of the stderr scan in `process_file` (`src/main.rs` 335-340):
fold over the lines, and every line starting with `"Score = "` overwrites
the score with the parse (default 0) of the line after
`trim_start_matches("Score = ")`. -/
def extract_score (stderr : String) : Nat :=
  (rustLines stderr).foldl
    (fun score line =>
      if scorePat.isPrefixOf line then
        (parseUsize (trimScoreMatches line)).getD 0
      else score)
    0

/-- Embedding of `Path::file_name` as used on the enumerator's paths
(`<input_dir>/<name>.txt`): the component after the last `'/'`. On such
paths this agrees with Rust; degenerate paths (`".."`, trailing slash) on
which `file_name` is `None` are never produced by `get_input_files`. -/
def basename (s : String) : String :=
  ((splitChar '/' s.data).getLastD []).asString

/-- Embedding of `extract_number` (`src/main.rs` 228-236): basename, split
on `'.'`, parse the first piece as `usize`, defaulting to 0 (the empty
branch of the source's `if` is unreachable since `split` is never empty). -/
def extract_number (filename : String) : Nat :=
  let base := basename filename
  let parts := splitChar '.' base.data
  match parts with
  | [] => 0
  | p :: _ => (parseUsize p).getD 0

/-- Embedding of `format_score` (`src/main.rs` 238-240). -/
def format_score (score : Nat) : String :=
  toString score

/-- Fuel-indexed body of `rustReplace`; the fuel bounds the scan position
and is always sufficient at `s.length`. -/
def replaceAux (pat repl : List Char) : Nat → List Char → List Char
  | 0, s => s
  | n + 1, s =>
    if pat ≠ [] ∧ pat.isPrefixOf s then repl ++ replaceAux pat repl n (s.drop pat.length)
    else
      match s with
      | [] => []
      | c :: cs => c :: replaceAux pat repl n cs

/-- Embedding of Rust `str::replace`: replace every non-overlapping
occurrence of `pat`, scanning left to right (the source only uses the
non-empty pattern `".txt"`). -/
def rustReplace (s pat repl : String) : String :=
  (replaceAux pat.data repl.data s.data.length s.data).asString

/-! ### Configuration and the per-task record (`src/main.rs` 12-48) -/

/-- Embedding of the `TesterConfig` struct. -/
structure TesterConfig where
  command : String
  script : Option String
  solver_script : Option String
  deriving DecidableEq

/-- Embedding of the `ParallelConfig` struct. -/
structure ParallelConfig where
  num_threads : Option Nat
  deriving DecidableEq

/-- Embedding of the `PathsConfig` struct. -/
structure PathsConfig where
  input_dir : String
  output_dir : String
  visualizer_dir : String
  html_output : String
  answers_dir : Option String
  deriving DecidableEq

/-- Embedding of the `Config` struct. -/
structure Config where
  paths : PathsConfig
  tester : TesterConfig
  parallel : Option ParallelConfig
  deriving DecidableEq

/-- Embedding of the `Result` struct (`src/main.rs` 12-18): the per-task
record carried through the pipeline. -/
structure Result where
  input_file : String
  score : Nat
  score_string : String
  visualizer : String
  deriving DecidableEq

/-- The zero-score record every failure path of `process_file` returns. -/
def zeroResult (input_file : String) : Result :=
  { input_file := input_file, score := 0, score_string := "0", visualizer := "" }

/-! ### The Scorer (`process_file`, `src/main.rs` 242-348) -/

/-- Outcome of `Child::wait_with_output` for the tester process. `stderr`
is the diagnostic stream already decoded as text (the source decodes it
with `from_utf8_lossy`); `stdout` is kept as raw bytes because it is
persisted verbatim. -/
structure ProcOutput where
  success : Bool
  exit_code : Option Int
  stdout : Bytes
  stderr : String
  deriving DecidableEq

/-- External environment one `process_file` call runs against: the result
of reading the input file, of spawning the tester, and of waiting for it.
`none` models the corresponding `Err` case. -/
structure ScorerEnv where
  readInput : Option Bytes
  spawn : Option Unit
  waitOutput : Option ProcOutput
  deriving DecidableEq

/-- Observable side effects of one `process_file` or `visualize_result`
call: files written and subprocesses launched. -/
inductive Effect where
  | wroteFile (path : String) (content : Bytes)
  | sentStdin (data : Bytes)
  | spawnedProc (prog : String) (args : List String)
  deriving DecidableEq

/-- Embedding of the command-template substitution in `process_file`
(`src/main.rs` 265-271): replace the two placeholders when the
corresponding configuration field is present. -/
def buildCommand (tester : TesterConfig) : String :=
  let command := tester.command
  let command := match tester.script with
    | some script => rustReplace command "\x7b\x7bscript\x7d\x7d" script
    | none => command
  let command := match tester.solver_script with
    | some solver_script => rustReplace command "\x7b\x7bsolver_script\x7d\x7d" solver_script
    | none => command
  command

/-- Embedding of `process_file` (`src/main.rs` 242-348). Returns the
`Result` record together with the list of observable side effects, in
program order. Every failure path returns the zero-score record; a
completed wait persists the captured stdout verbatim to
`<output_dir>/<basename>` and extracts the score from stderr, independent
of the exit status (which is only logged). -/
def process_file (env : ScorerEnv) (input_file output_dir : String) (config : Config) :
    Result × List Effect :=
  let base_name := basename input_file
  let output_file := output_dir ++ "/" ++ base_name
  match env.readInput with
  | none => (zeroResult input_file, [])
  | some input_data =>
    let parts := splitWhitespace (buildCommand config.tester)
    match parts with
    | [] => (zeroResult input_file, [])
    | prog :: args =>
      match env.spawn with
      | none => (zeroResult input_file, [Effect.spawnedProc prog args])
      | some _ =>
        match env.waitOutput with
        | none =>
          (zeroResult input_file,
           [Effect.spawnedProc prog args, Effect.sentStdin input_data])
        | some output =>
          ({ input_file := input_file,
             score := extract_score output.stderr,
             score_string := format_score (extract_score output.stderr),
             visualizer := "" },
           [Effect.spawnedProc prog args, Effect.sentStdin input_data,
            Effect.wroteFile output_file output.stdout])

/-! ### The Visualizer (`visualize_result`, `src/main.rs` 350-396) -/

/-- Outcome of `Command::output()` for the visualizer process. -/
structure VisOutput where
  success : Bool
  stderr : String
  deriving DecidableEq

/-- External environment one `visualize_result` call runs against:
the result of running the visualizer (`none` models a spawn error),
whether `vis.html` exists in the working directory afterwards, and whether
the rename / fallback copy succeed. -/
structure VisEnv where
  runOutput : Option VisOutput
  visHtmlExists : Bool
  renameOk : Bool
  copyOk : Bool
  deriving DecidableEq

/-- Embedding of `visualize_result` (`src/main.rs` 350-396). Returns the
(possibly updated) record together with the destination path the artifact
was relocated to (`none` when nothing was relocated). On success the
visualizer reference is set to the hard-coded relative path
`"visualizations/<base>.html"` — the artifact itself is moved (or copied
then deleted) to `<visualizer_dir>/<base>.html`. Every failure path
returns the record unmodified. The output directory only feeds the
visualizer's argument vector, which the environment abstracts, so it is
unused here (mirroring how the source ignores `_tools_dir`). -/
def visualize_result (env : VisEnv) (result : Result) (_output_dir visualizer_dir : String) :
    Result × Option String :=
  let base_name := basename result.input_file
  let visualizer_file := visualizer_dir ++ "/" ++ rustReplace base_name ".txt" ".html"
  match env.runOutput with
  | none => (result, none)
  | some out =>
    if out.success = false then (result, none)
    else if env.visHtmlExists then
      if env.renameOk then
        ({ result with visualizer := "visualizations/" ++ rustReplace base_name ".txt" ".html" },
         some visualizer_file)
      else if env.copyOk then
        ({ result with visualizer := "visualizations/" ++ rustReplace base_name ".txt" ".html" },
         some visualizer_file)
      else (result, none)
    else (result, none)

/-! ### The pipeline: fan-out, consumer, aggregation (`main`, `src/main.rs` 131-188) -/

/-- One scoring task as dispatched by the worker pool: `process_file`
restricted to its record (the effects are dropped by the channel). -/
def scoreTask (senv : String → ScorerEnv) (output_dir : String) (config : Config)
    (input_file : String) : Result :=
  (process_file (senv input_file) input_file output_dir config).1

/-- Embedding of the consumer loop (`src/main.rs` 167-172): results are
received from the channel in completion order (the `arrival` list) and
each is visualized serially before being appended to the accumulator. -/
def runConsumer (venv : String → VisEnv) (output_dir visualizer_dir : String)
    (arrival : List Result) : List Result :=
  arrival.map fun r => (visualize_result (venv r.input_file) r output_dir visualizer_dir).1

/-- The numeric sort key of a record (`extract_number` on its input file,
`src/main.rs` 178). -/
def resultKey (r : Result) : Nat :=
  extract_number r.input_file

/-- The sort-key ordering used by the final `sort_by_key`. -/
def keyLE (a b : Result) : Prop :=
  resultKey a ≤ resultKey b

instance : DecidableRel keyLE := fun a b => Nat.decLe (resultKey a) (resultKey b)

instance : IsTotal Result keyLE := ⟨fun a b => Nat.le_total (resultKey a) (resultKey b)⟩

instance : IsTrans Result keyLE := ⟨fun _ _ _ h h2 => Nat.le_trans h h2⟩

/-- Embedding of `results.sort_by_key(|r| extract_number(&r.input_file))`
(`src/main.rs` 178). Rust's `slice::sort_by_key` is a stable sort, and a
stable sort is extensionally unique, so it is embedded as the canonical
stable sort (insertion sort). -/
def sortResults (rs : List Result) : List Result :=
  List.insertionSort keyLE rs

/-- Sum of the scores of a collection (`src/main.rs` 181). -/
def totalScore (rs : List Result) : Nat :=
  (rs.map Result.score).sum

/-- Embedding of the aggregation step (`src/main.rs` 177-181): sort the
accumulated collection by sort key, then compute the total score of the
(sorted, hence of the whole) collection. -/
def aggregate (rs : List Result) : List Result × Nat :=
  let sorted := sortResults rs
  (sorted, totalScore sorted)

/-- Embedding of the thread-count resolution in `main` (`src/main.rs`
138-146): the configured value if present, otherwise the detected host
parallelism (`detected`, which `available_parallelism` reports as a
positive count), falling back to 1 when detection fails. -/
def resolveNumThreads (config : Config) (detected : Option Nat) : Nat :=
  match config.parallel.bind ParallelConfig.num_threads with
  | some n => n
  | none =>
    match detected with
    | some n => n
    | none => 1

/-- Modelled from the spec: the resolved value is handed to rayon's
`ThreadPoolBuilder::num_threads`, whose documented contract (the builder
is an external dependency, not code under `src/`) is that `0` selects the
default degree of parallelism, i.e. the host's available parallelism. -/
def effectiveParallelism (requested rayonDefault : Nat) : Nat :=
  if requested = 0 then rayonDefault else requested

/-! ### Definitions following the spec's words, for refinement comparison -/

/-- Written from the spec's words, for comparison with `extract_score`:
each line with the exact prefix `"Score = "` contributes the parse
(default 0) of "the remainder of that line", i.e. the line with the
prefix removed ONCE; the last matching line wins, no match gives 0. -/
def specScoreExtraction (stderr : String) : Nat :=
  (rustLines stderr).foldl
    (fun score line =>
      if scorePat.isPrefixOf line then
        (parseUsize (line.drop scorePat.length)).getD 0
      else score)
    0

/-- Written from the spec's words, for comparison with `extract_number`:
the filename without its directory path, the substring before the first
`'.'` separator, parsed as a non-negative integer, with 0 on parse
failure or empty input. -/
def specSortKey (filename : String) : Nat :=
  (parseUsize ((basename filename).data.takeWhile (fun x => x != '.'))).getD 0

/-! ### Concrete fixtures used by witnesses and counterexamples -/

/-- A minimal configuration used in concrete instantiations. -/
def exCfg : Config :=
  { paths := { input_dir := "in", output_dir := "out", visualizer_dir := "vis",
               html_output := "r.html", answers_dir := none },
    tester := { command := "tester", script := none, solver_script := none },
    parallel := none }

/-- A scorer environment in which reading the input file fails. -/
def exSenvFail : String → ScorerEnv := fun _ =>
  { readInput := none, spawn := none, waitOutput := none }

/-- A visualizer environment in which the visualizer fails to spawn. -/
def exVenvFail : String → VisEnv := fun _ =>
  { runOutput := none, visHtmlExists := false, renameOk := false, copyOk := false }

/-- A scorer environment whose tester exits non-zero yet prints a score. -/
def exSenvWarn : ScorerEnv :=
  { readInput := some [1, 2],
    spawn := some (),
    waitOutput := some
      { success := false, exit_code := some 1, stdout := [104, 105],
        stderr := "oops\nScore = 7\n" } }

/-! ### Helper lemmas about the embedding -/

theorem splitChar_ne_nil (c : Char) (l : List Char) : splitChar c l ≠ [] := by
  cases l with
  | nil => simp [splitChar]
  | cons x xs =>
    unfold splitChar
    split
    · simp
    · cases splitChar c xs <;> simp

theorem splitChar_headD (c : Char) (l : List Char) :
    (splitChar c l).headD [] = l.takeWhile (fun x => x != c) := by
  induction l with
  | nil => simp [splitChar]
  | cons x xs ih =>
    unfold splitChar
    by_cases hx : x = c
    · simp [hx, List.takeWhile]
    · simp only [if_neg hx]
      cases hsc : splitChar c xs with
      | nil => exact absurd hsc (splitChar_ne_nil c xs)
      | cons h t =>
        rw [hsc] at ih
        simp only [List.headD] at ih ⊢
        have hxc : (x != c) = true := by simpa using hx
        simp [List.takeWhile, ih, hxc]

theorem data_asString (l : List Char) : (List.asString l).data = l := rfl

/-- Folding an overwrite-on-match step is the same as taking the last
matching element. -/
theorem foldl_overwrite {α β : Type} (p : α → Bool) (g : α → β) (init : β) (l : List α) :
    l.foldl (fun acc x => if p x then g x else acc) init =
      (((l.filter p).getLast?).map g).getD init := by
  induction l using List.reverseRecOn with
  | nil => simp
  | append_singleton l x ih =>
    rw [List.foldl_append, List.filter_append]
    by_cases hx : p x
    · simp [hx]
    · simp [hx, ih]

theorem process_file_input_file (env : ScorerEnv) (f od : String) (config : Config) :
    ((process_file env f od config).1).input_file = f := by
  unfold process_file
  cases env.readInput with
  | none => rfl
  | some d =>
    cases splitWhitespace (buildCommand config.tester) with
    | nil => rfl
    | cons prog args =>
      cases env.spawn with
      | none => rfl
      | some u =>
        cases env.waitOutput with
        | none => rfl
        | some out => rfl

theorem process_file_visualizer (env : ScorerEnv) (f od : String) (config : Config) :
    ((process_file env f od config).1).visualizer = "" := by
  unfold process_file
  cases env.readInput with
  | none => rfl
  | some d =>
    cases splitWhitespace (buildCommand config.tester) with
    | nil => rfl
    | cons prog args =>
      cases env.spawn with
      | none => rfl
      | some u =>
        cases env.waitOutput with
        | none => rfl
        | some out => rfl

theorem process_file_fails (env : ScorerEnv) (f od : String) (config : Config)
    (h : env.readInput = none ∨ splitWhitespace (buildCommand config.tester) = [] ∨
      env.spawn = none ∨ env.waitOutput = none) :
    (process_file env f od config).1 = zeroResult f := by
  unfold process_file
  cases hr : env.readInput with
  | none => rfl
  | some d =>
    cases hc : splitWhitespace (buildCommand config.tester) with
    | nil => rfl
    | cons prog args =>
      cases hs : env.spawn with
      | none => rfl
      | some u =>
        cases hw : env.waitOutput with
        | none => rfl
        | some out => simp [hr, hc, hs, hw] at h

theorem visualize_result_frame (env : VisEnv) (r : Result) (od vd : String) :
    ((visualize_result env r od vd).1).input_file = r.input_file ∧
    ((visualize_result env r od vd).1).score = r.score ∧
    ((visualize_result env r od vd).1).score_string = r.score_string := by
  unfold visualize_result
  cases env.runOutput with
  | none => exact ⟨rfl, rfl, rfl⟩
  | some out =>
    by_cases hs : out.success = false
    · simp [hs]
    · by_cases hv : env.visHtmlExists
      · by_cases hm : env.renameOk
        · simp [hs, hv, hm]
        · by_cases hcp : env.copyOk <;> simp [hs, hv, hm, hcp]
      · simp [hs, hv]

theorem sortResults_filter (rs : List Result) (k : Nat) :
    (sortResults rs).filter (fun r => resultKey r == k) =
      rs.filter (fun r => resultKey r == k) := by
  have hself : (rs.filter (fun r => resultKey r == k)).filter (fun r => resultKey r == k) =
      rs.filter (fun r => resultKey r == k) :=
    List.filter_eq_self.mpr fun a ha => (List.mem_filter.mp ha).2
  have hpw : (rs.filter (fun r => resultKey r == k)).Pairwise keyLE := by
    apply List.pairwise_of_forall_mem_list
    intro a ha b hb
    have hak : resultKey a = k := by simpa using (List.mem_filter.mp ha).2
    have hbk : resultKey b = k := by simpa using (List.mem_filter.mp hb).2
    unfold keyLE
    omega
  have h1 : List.Sublist (rs.filter (fun r => resultKey r == k)) (List.insertionSort keyLE rs) :=
    List.sublist_insertionSort hpw (List.filter_sublist rs)
  have h3 : List.Sublist (rs.filter (fun r => resultKey r == k))
      ((List.insertionSort keyLE rs).filter (fun r => resultKey r == k)) := by
    have := h1.filter (fun r => resultKey r == k)
    rwa [hself] at this
  have hperm : List.Perm ((List.insertionSort keyLE rs).filter (fun r => resultKey r == k))
      (rs.filter (fun r => resultKey r == k)) :=
    (List.perm_insertionSort keyLE rs).filter _
  exact (h3.eq_of_length hperm.length_eq.symm).symm

/-! ### Claims -/

/-- C2 (counterexample): the claim describes a matching line's candidate
as the parse of the remainder of the line after the prefix `"Score = "`.
The code instead strips the prefix REPEATEDLY (`trim_start_matches`): on
the diagnostic text `"Score = Score = 5"` the code extracts 5, while the
claim's description parses `"Score = 5"`, fails, and yields 0. -/
theorem c2_counterexample :
    extract_score "Score = Score = 5" = 5 ∧
    specScoreExtraction "Score = Score = 5" = 0 ∧ (5 : Nat) ≠ 0 :=
  ⟨by decide, by decide, by decide⟩

/-- C2 (amended): the extracted score scans every line; each line with
the exact prefix `"Score = "` contributes a candidate obtained by parsing
the line with all leading repetitions of `"Score = "` removed (0 if that
parse fails); the last matching line's candidate is the final score, and
a text with no matching line yields 0. `"Score = 10\nnoise\nScore = 42\n"`
yields 42. -/
theorem c2_score_extraction :
    (∀ s : String,
      extract_score s =
        ((((rustLines s).filter (fun l => scorePat.isPrefixOf l)).getLast?).map
          (fun l => (parseUsize (trimScoreMatches l)).getD 0)).getD 0) ∧
    extract_score "Score = 10\nnoise\nScore = 42\n" = 42 ∧
    extract_score "noise\nmore noise\n" = 0 := by
  refine ⟨fun s => ?_, by decide, by decide⟩
  unfold extract_score
  exact foldl_overwrite (fun l => scorePat.isPrefixOf l)
    (fun l => (parseUsize (trimScoreMatches l)).getD 0) 0 (rustLines s)

/-- C3 (counterexample): the tasks `abc.txt` and `def.txt` share sort
key 0. When scoring completes in the reverse of the enumeration order,
the final aggregated collection lists them in completion order
`def.txt, abc.txt`, not in enumeration order `abc.txt, def.txt`: the
final sort is stable over the receipt order, so the enumeration-order
tie-break fails for this completion order. -/
theorem c3_counterexample :
    List.Perm
      [scoreTask exSenvFail "out" exCfg "def.txt", scoreTask exSenvFail "out" exCfg "abc.txt"]
      (["abc.txt", "def.txt"].map (scoreTask exSenvFail "out" exCfg)) ∧
    extract_number "abc.txt" = extract_number "def.txt" ∧
    ((aggregate (runConsumer exVenvFail "out" "vis"
        [scoreTask exSenvFail "out" exCfg "def.txt",
         scoreTask exSenvFail "out" exCfg "abc.txt"])).1.map Result.input_file =
      ["def.txt", "abc.txt"]) ∧
    (["def.txt", "abc.txt"] : List String) ≠ ["abc.txt", "def.txt"] := by
  refine ⟨List.Perm.swap _ _ _, by decide, by decide, by decide⟩

/-- C3 (amended): the final aggregated collection is sorted by each
task's numeric sort key, and for every pair of tasks sharing a sort key
the relative order in the final collection is the order in which their
results reached the consumer (completion order) — the stable sort's
tie-break is receipt order, not enumeration order. -/
theorem c3_stable_sort (rs : List Result) :
    List.Sorted keyLE (aggregate rs).1 ∧
    (∀ k, (aggregate rs).1.filter (fun r => resultKey r == k) =
      rs.filter (fun r => resultKey r == k)) := by
  constructor
  · exact List.sorted_insertionSort keyLE rs
  · exact fun k => sortResults_filter rs k

/-- C4: the reported total equals the sum of the individual scores of the
final aggregated collection, and also the sum over the collection in the
order it was accumulated (sorting does not change the total), for every
collection of records. -/
theorem c4_total_score (rs : List Result) :
    (aggregate rs).2 = totalScore (aggregate rs).1 ∧
    (aggregate rs).2 = totalScore rs := by
  refine ⟨rfl, ?_⟩
  show totalScore (sortResults rs) = totalScore rs
  unfold totalScore sortResults
  exact List.Perm.sum_eq ((List.perm_insertionSort keyLE rs).map Result.score)

/-- C5: sort-key extraction takes the filename without its directory
path, reads the substring before the first `'.'` separator, and parses it
as a non-negative integer, yielding 0 on parse failure or empty input;
`"007.txt"` yields 7 and `"abc.txt"` yields 0. -/
theorem c5_sort_key :
    (∀ f : String, extract_number f = specSortKey f) ∧
    extract_number "007.txt" = 7 ∧ extract_number "abc.txt" = 0 := by
  refine ⟨fun f => ?_, by decide, by decide⟩
  show (match splitChar '.' (basename f).data with
        | [] => 0
        | p :: _ => (parseUsize p).getD 0) =
      (parseUsize ((basename f).data.takeWhile (fun x => x != '.'))).getD 0
  have h := splitChar_headD '.' (basename f).data
  cases hsc : splitChar '.' (basename f).data with
  | nil => exact absurd hsc (splitChar_ne_nil _ _)
  | cons p t =>
    rw [hsc] at h
    simp only [List.headD] at h
    simp [h]

/-- C6: whenever the tester process could be spawned and waited on (with
a non-empty command and readable input), the resulting record's score is
the extraction from the diagnostic stream and the captured stdout is
persisted verbatim to `<output_dir>/<basename>` — independent of the
process's exit status, which does not appear in the conclusion at all. -/
theorem c6_exit_status_independent (env : ScorerEnv) (f od : String) (config : Config)
    (input_data : Bytes) (out : ProcOutput)
    (hread : env.readInput = some input_data)
    (hcmd : splitWhitespace (buildCommand config.tester) ≠ [])
    (hspawn : env.spawn = some ())
    (hwait : env.waitOutput = some out) :
    ((process_file env f od config).1).score = extract_score out.stderr ∧
    ((process_file env f od config).1).score_string = format_score (extract_score out.stderr) ∧
    Effect.wroteFile (od ++ "/" ++ basename f) out.stdout ∈ (process_file env f od config).2 := by
  unfold process_file
  rw [hread]
  cases hc : splitWhitespace (buildCommand config.tester) with
  | nil => exact absurd hc hcmd
  | cons prog args =>
    rw [hspawn, hwait]
    exact ⟨rfl, rfl, by simp⟩

/-- Witness for C6: a tester that exits non-zero (exit code 1) but prints
`Score = 7` still yields a record whose score is the extracted 7. -/
theorem c6_witness :
    exSenvWarn.readInput = some [1, 2] ∧
    ((process_file exSenvWarn "1.txt" "out" exCfg).1).score = extract_score "oops\nScore = 7\n" ∧
    extract_score "oops\nScore = 7\n" = 7 :=
  ⟨rfl,
   (c6_exit_status_independent exSenvWarn "1.txt" "out" exCfg [1, 2]
      { success := false, exit_code := some 1, stdout := [104, 105],
        stderr := "oops\nScore = 7\n" }
      rfl (by decide) rfl rfl).1,
   by decide⟩

/-- C7: on any visualization failure — spawn failure, non-zero exit, or
missing `vis.html` artifact — the record is returned unmodified, nothing
is relocated, and a record that arrived with an absent (empty) visualizer
reference keeps it absent. -/
theorem c7_vis_failure (env : VisEnv) (r : Result) (od vd : String)
    (h : env.runOutput = none ∨
      (∃ out, env.runOutput = some out ∧ out.success = false) ∨
      env.visHtmlExists = false) :
    (visualize_result env r od vd).1 = r ∧
    (visualize_result env r od vd).2 = none ∧
    (r.visualizer = "" → ((visualize_result env r od vd).1).visualizer = "") := by
  have hmain : visualize_result env r od vd = (r, none) := by
    unfold visualize_result
    rcases h with h | ⟨out, ho, hs⟩ | h
    · rw [h]
    · rw [ho]
      simp [hs]
    · cases ho : env.runOutput with
      | none => rfl
      | some out => by_cases hs : out.success = false <;> simp [hs, h]
  rw [hmain]
  exact ⟨rfl, rfl, fun hv => hv⟩

/-- Witness for C7: a spawn failure leaves the zero-score record exactly
as it was. -/
theorem c7_witness :
    (exVenvFail "x").runOutput = none ∧
    (visualize_result (exVenvFail "x") (zeroResult "1.txt") "out" "vis").1 = zeroResult "1.txt" :=
  ⟨rfl,
   (c7_vis_failure (exVenvFail "x") (zeroResult "1.txt") "out" "vis" (Or.inl rfl)).1⟩

/-- A visualizer environment in which everything succeeds. -/
def exVenvOk : VisEnv :=
  { runOutput := some { success := true, stderr := "" },
    visHtmlExists := true, renameOk := true, copyOk := true }

/-- C8 (counterexample): with the visualization directory configured as
`"vis_out"`, the artifact is relocated to `"vis_out/1.html"` but the
stored visualizer reference is the hard-coded `"visualizations/1.html"` —
not the relative path of the relocated artifact inside the configured
directory, contradicting the claim. -/
theorem c8_counterexample :
    (visualize_result exVenvOk (zeroResult "in/1.txt") "out" "vis_out").2 =
      some "vis_out/1.html" ∧
    ((visualize_result exVenvOk (zeroResult "in/1.txt") "out" "vis_out").1).visualizer =
      "visualizations/1.html" ∧
    ("visualizations/1.html" : String) ≠ "vis_out/1.html" :=
  ⟨by decide, by decide, by decide⟩

/-- C9: whenever scoring cannot proceed — unreadable input, an empty
command after substitution and whitespace-splitting, spawn failure or
wait failure — the Scorer returns the zero-score record (score 0, absent
visualizer reference) without aborting, and in the empty-command case no
external program is invoked at all. -/
theorem c9_scorer_failure (env : ScorerEnv) (f od : String) (config : Config)
    (h : env.readInput = none ∨ splitWhitespace (buildCommand config.tester) = [] ∨
      env.spawn = none ∨ env.waitOutput = none) :
    (process_file env f od config).1 = zeroResult f ∧
    ((process_file env f od config).1).score = 0 ∧
    ((process_file env f od config).1).visualizer = "" ∧
    (splitWhitespace (buildCommand config.tester) = [] →
      ∀ prog args, Effect.spawnedProc prog args ∉ (process_file env f od config).2) := by
  have h1 := process_file_fails env f od config h
  refine ⟨h1, by rw [h1]; rfl, by rw [h1]; rfl, ?_⟩
  intro hc prog args
  unfold process_file
  cases hr : env.readInput with
  | none => simp
  | some d =>
    rw [hc]
    simp

/-- A configuration whose tester command is whitespace only, so the split
command is empty. -/
def exCfgEmpty : Config :=
  { exCfg with tester := { command := "  ", script := none, solver_script := none } }

/-- Witness for C9: an unreadable input yields the zero-score record, and
with the whitespace-only command no process is ever spawned. -/
theorem c9_witness :
    (exSenvFail "x").readInput = none ∧
    (process_file (exSenvFail "x") "1.txt" "out" exCfgEmpty).1 = zeroResult "1.txt" ∧
    (∀ prog args,
      Effect.spawnedProc prog args ∉ (process_file (exSenvFail "x") "1.txt" "out" exCfgEmpty).2) :=
  ⟨rfl,
   (c9_scorer_failure (exSenvFail "x") "1.txt" "out" exCfgEmpty (Or.inl rfl)).1,
   (c9_scorer_failure (exSenvFail "x") "1.txt" "out" exCfgEmpty (Or.inl rfl)).2.2.2 (by decide)⟩

/-- C10: the scoring stage's degree of parallelism resolves to the host's
available parallelism `h` both when the configuration leaves the thread
count unset and when it is configured as 0 (which the thread-pool builder
treats as "use the default"); any other configured positive value is used
as given. -/
theorem c10_parallelism (config : Config) (h : Nat) (_hh : 0 < h) :
    (config.parallel.bind ParallelConfig.num_threads = none →
      effectiveParallelism (resolveNumThreads config (some h)) h = h) ∧
    (config.parallel.bind ParallelConfig.num_threads = some 0 →
      effectiveParallelism (resolveNumThreads config (some h)) h = h) ∧
    (∀ v, 0 < v → config.parallel.bind ParallelConfig.num_threads = some v →
      effectiveParallelism (resolveNumThreads config (some h)) h = v) := by
  refine ⟨fun hn => ?_, fun h0 => ?_, fun v hv hsv => ?_⟩
  · simp [resolveNumThreads, effectiveParallelism, hn]
  · simp [resolveNumThreads, effectiveParallelism, h0]
  · have : v ≠ 0 := Nat.pos_iff_ne_zero.mp hv
    simp [resolveNumThreads, effectiveParallelism, hsv, this]

/-- The per-record step the consumer applies to every received result
(`src/main.rs` 169): serial visualization. -/
def consumeStep (venv : String → VisEnv) (od vd : String) (r : Result) : Result :=
  (visualize_result (venv r.input_file) r od vd).1

theorem consumeStep_input_file (venv : String → VisEnv) (od vd : String) (r : Result) :
    (consumeStep venv od vd r).input_file = r.input_file :=
  (visualize_result_frame (venv r.input_file) r od vd).1

theorem consumeStep_score (venv : String → VisEnv) (od vd : String) (r : Result) :
    (consumeStep venv od vd r).score = r.score :=
  (visualize_result_frame (venv r.input_file) r od vd).2.1

theorem runConsumer_eq_map (venv : String → VisEnv) (od vd : String) (arrival : List Result) :
    runConsumer venv od vd arrival = arrival.map (consumeStep venv od vd) :=
  rfl

/-- C1: for every task set, every environment, and every completion order
of the scoring stage, the final aggregated collection has exactly one
record per enumerated input file (matching lengths and matching
multiplicity of every input-file value — no task lost, none duplicated),
and a task whose scoring fails (unreadable input, empty command, spawn
failure, wait failure) contributes a zero-score record instead of being
dropped. -/
theorem c1_task_conservation (tasks : List String) (senv : String → ScorerEnv)
    (venv : String → VisEnv) (config : Config) (od vd : String) (arrival : List Result)
    (hperm : List.Perm arrival (tasks.map (scoreTask senv od config))) :
    ((aggregate (runConsumer venv od vd arrival)).1.length = tasks.length) ∧
    (∀ f, ((aggregate (runConsumer venv od vd arrival)).1.filter
        (fun r => r.input_file == f)).length =
      (tasks.filter (fun g => g == f)).length) ∧
    (∀ r ∈ (aggregate (runConsumer venv od vd arrival)).1,
      ((senv r.input_file).readInput = none ∨
       splitWhitespace (buildCommand config.tester) = [] ∨
       (senv r.input_file).spawn = none ∨
       (senv r.input_file).waitOutput = none) →
      r.score = 0) := by
  have hg_file : ∀ t, (consumeStep venv od vd (scoreTask senv od config t)).input_file = t := by
    intro t
    rw [consumeStep_input_file]
    exact process_file_input_file (senv t) t od config
  have hfinal : (aggregate (runConsumer venv od vd arrival)).1 =
      sortResults (arrival.map (consumeStep venv od vd)) := by
    rw [runConsumer_eq_map]
    rfl
  have hp1 : List.Perm (sortResults (arrival.map (consumeStep venv od vd)))
      (arrival.map (consumeStep venv od vd)) :=
    List.perm_insertionSort keyLE _
  have hp2 : List.Perm (arrival.map (consumeStep venv od vd))
      ((tasks.map (scoreTask senv od config)).map (consumeStep venv od vd)) :=
    hperm.map (consumeStep venv od vd)
  have hp3 : (tasks.map (scoreTask senv od config)).map (consumeStep venv od vd) =
      tasks.map (fun t => consumeStep venv od vd (scoreTask senv od config t)) :=
    List.map_map _ _ _
  refine ⟨?_, ?_, ?_⟩
  · rw [hfinal, hp1.length_eq, hp2.length_eq, hp3, List.length_map]
  · intro f
    rw [hfinal, ((hp1.filter _).trans (hp2.filter _)).length_eq, hp3, List.filter_map,
      List.length_map]
    congr 1
    apply List.filter_congr
    intro t _
    simp [Function.comp, hg_file t]
  · intro r hr hfail
    rw [hfinal] at hr
    have hr2 := hp2.mem_iff.mp (hp1.mem_iff.mp hr)
    rw [hp3] at hr2
    obtain ⟨t, _ht, hrt⟩ := List.mem_map.mp hr2
    have hfile : r.input_file = t := by rw [← hrt]; exact hg_file t
    have hzero : scoreTask senv od config t = zeroResult t := by
      apply process_file_fails
      rwa [hfile] at hfail
    have hsc : r.score = (scoreTask senv od config t).score := by
      rw [← hrt, consumeStep_score]
    rw [hsc, hzero]
    rfl

/-- Witness for C1: a single failing task yields a final collection of
length one. -/
theorem c1_witness :
    (aggregate (runConsumer exVenvFail "out" "vis"
      (["1.txt"].map (scoreTask exSenvFail "out" exCfg)))).1.length = ["1.txt"].length :=
  (c1_task_conservation ["1.txt"] exSenvFail exVenvFail exCfg "out" "vis" _
    (List.Perm.refl _)).1

/-- C8 (amended): on visualization success the record's visualizer
reference is set to the fixed relative path `"visualizations/"` followed
by the task's base name with `".txt"` replaced by `".html"` — independent
of the configured visualization directory, which only determines where
the artifact file itself is relocated — and every other field of the
record (input file, score, score display string) is unchanged; moreover
the Visualizer is the only mutation of a record after the Scorer creates
it: for every task set, environment and completion order, every record in
the final aggregated collection is exactly one `visualize_result`
application (the consumer's step) away from the Scorer-created record of
some enumerated task, a record born with an absent visualizer
reference. -/
theorem c8_vis_success :
    (∀ (env : VisEnv) (r : Result) (od vd : String) (out : VisOutput),
      env.runOutput = some out → out.success = true → env.visHtmlExists = true →
      (env.renameOk = true ∨ env.copyOk = true) →
      ((visualize_result env r od vd).1).visualizer =
        "visualizations/" ++ rustReplace (basename r.input_file) ".txt" ".html" ∧
      (visualize_result env r od vd).2 =
        some (vd ++ "/" ++ rustReplace (basename r.input_file) ".txt" ".html") ∧
      ((visualize_result env r od vd).1).input_file = r.input_file ∧
      ((visualize_result env r od vd).1).score = r.score ∧
      ((visualize_result env r od vd).1).score_string = r.score_string) ∧
    (∀ (tasks : List String) (senv : String → ScorerEnv) (venv : String → VisEnv)
        (config : Config) (od vd : String) (arrival : List Result),
      List.Perm arrival (tasks.map (scoreTask senv od config)) →
      ∀ r ∈ (aggregate (runConsumer venv od vd arrival)).1,
        ∃ t ∈ tasks,
          (scoreTask senv od config t).visualizer = "" ∧
          r = consumeStep venv od vd (scoreTask senv od config t)) := by
  constructor
  · intro env r od vd out hrun hs hv hmv
    unfold visualize_result
    rw [hrun]
    by_cases hm : env.renameOk
    · simp [hs, hv, hm]
    · rcases hmv with hm' | hc
      · exact absurd hm' hm
      · simp [hs, hv, hm, hc]
  · intro tasks senv venv config od vd arrival hperm r hr
    have hfinal : (aggregate (runConsumer venv od vd arrival)).1 =
        sortResults (arrival.map (consumeStep venv od vd)) := by
      rw [runConsumer_eq_map]
      rfl
    rw [hfinal] at hr
    have hr1 : r ∈ arrival.map (consumeStep venv od vd) :=
      (List.perm_insertionSort keyLE _).mem_iff.mp hr
    have hr2 : r ∈ (tasks.map (scoreTask senv od config)).map (consumeStep venv od vd) :=
      (hperm.map (consumeStep venv od vd)).mem_iff.mp hr1
    have hmm : (tasks.map (scoreTask senv od config)).map (consumeStep venv od vd) =
        tasks.map (fun t => consumeStep venv od vd (scoreTask senv od config t)) :=
      List.map_map _ _ _
    rw [hmm] at hr2
    obtain ⟨t, ht, hrt⟩ := List.mem_map.mp hr2
    exact ⟨t, ht, process_file_visualizer (senv t) t od config, hrt.symm⟩

/-- Witness for C8 (amended): the fully-successful environment on task
`in/1.txt` stores the reference `visualizations/1.html`, and in a
one-task pipeline the final record is the consumer's single visualization
step applied to the Scorer-created record. -/
theorem c8_witness :
    (exVenvOk.visHtmlExists = true ∧
      ((visualize_result exVenvOk (zeroResult "in/1.txt") "out" "vis").1).visualizer =
        "visualizations/" ++ rustReplace (basename "in/1.txt") ".txt" ".html") ∧
    (∃ t ∈ ["1.txt"],
      (scoreTask exSenvFail "out" exCfg t).visualizer = "" ∧
      consumeStep exVenvFail "out" "vis" (scoreTask exSenvFail "out" exCfg "1.txt") =
        consumeStep exVenvFail "out" "vis" (scoreTask exSenvFail "out" exCfg t)) :=
  ⟨⟨rfl,
    (c8_vis_success.1 exVenvOk (zeroResult "in/1.txt") "out" "vis"
      { success := true, stderr := "" } rfl rfl rfl (Or.inl rfl)).1⟩,
   c8_vis_success.2 ["1.txt"] exSenvFail exVenvFail exCfg "out" "vis"
     (["1.txt"].map (scoreTask exSenvFail "out" exCfg)) (List.Perm.refl _)
     (consumeStep exVenvFail "out" "vis" (scoreTask exSenvFail "out" exCfg "1.txt"))
     (by decide)⟩

/-- A configuration with the thread count explicitly set to 0. -/
def exCfgPar0 : Config :=
  { exCfg with parallel := some { num_threads := some 0 } }

/-- Witness for C10: with the thread count configured as 0 and host
parallelism 4, the effective parallelism is 4. -/
theorem c10_witness :
    0 < 4 ∧ effectiveParallelism (resolveNumThreads exCfgPar0 (some 4)) 4 = 4 :=
  ⟨by decide, (c10_parallelism exCfgPar0 4 (by decide)).2.1 rfl⟩

end AhcVis
